import Mathlib

/-!
Verification of the immutable-state-variable validator
(`libsolidity/analysis/ImmutableValidator.cpp`).

The C++ validator is a recursive AST visitor with ambient mutable state
(phase flags, the set of initialized state variables, the set of visited
callables, the current constructor, and the accumulated diagnostics).  The
shallow embedding below represents the AST as inductive types whose
cross-references (a use naming a declaration) go through numeric identities
resolved against a `Program` environment, mirroring the pointer identities
of the C++ AST, and threads the ambient state explicitly as a `VState`
value.  Recursion through the call graph is bounded by explicit fuel, as in
the source it is bounded by the visited-callables set.
-/

namespace ImmutableValidator

/-- Diagnostic message of `analyseVariableDeclaration`: write with no
enclosing constructor. -/
def msgOnlyInline : String :=
  "Immutable variables can only be initialized inline or directly in the constructor."

/-- Diagnostic message: write in a constructor of a contract other than the
one declaring the variable. -/
def msgDefiningContract : String :=
  "Immutable variables must be initialized in the constructor of the contract they are defined in."

/-- Diagnostic message: write inside a while statement. -/
def msgLoop : String :=
  "Immutable variables can only be initialized once, not in a while statement."

/-- Diagnostic message: write inside an if statement. -/
def msgBranch : String :=
  "Immutable variables must be initialized unconditionally, not in an if statement."

/-- Diagnostic message: write while initialization is forbidden by phase. -/
def msgCtorBody : String :=
  "Immutable variables must be initialized in the constructor body."

/-- Diagnostic message: second write of the same immutable variable. -/
def msgAlready : String :=
  "Immutable state variable already initialized."

/-- Diagnostic message: read while reading is forbidden by phase. -/
def msgRead : String :=
  "Immutable variables cannot be read during contract creation time, which means they cannot be read in the constructor or any function or modifier called from it."

/-- Diagnostic message of `checkAllVariablesInitialized`. -/
def msgNotAllInit : String :=
  "Construction controlflow ends without initializing all immutable state variables."

/-- Secondary-location label of `checkAllVariablesInitialized`. -/
def msgNotInitLabel : String :=
  "Not initialized: "

/-- A reported violation: `plain` models `reportTypeError(location, message)`,
`secondary` the variant carrying a secondary location/message pair. -/
inductive Violation
  | plain (loc : Nat) (msg : String)
  | secondary (loc : Nat) (secondaryMsg : String) (secondaryLoc : Nat) (msg : String)
deriving DecidableEq, Repr

/-- The kind of a function type, `FunctionType::Kind` restricted to what the
validator inspects. -/
inductive FunctionKind
  | internal
  | declaration
  | externalCall
  | otherKind
deriving DecidableEq, Repr

/-- The declaration referenced by an identifier or member access
(`annotation().referencedDeclaration` after the two dynamic casts). -/
inductive DeclTarget
  | varRef (vid : Nat)
  | callableRef (cid : Nat)
deriving DecidableEq, Repr

/-- The type annotation of an expression, restricted to the dynamic casts the
validator performs (`FunctionType`, `FixedBytesType`, anything else). -/
inductive TypeAnno
  | functionType (kind : FunctionKind) (declId : Option Nat)
  | fixedBytes
  | otherType
deriving DecidableEq, Repr

/-- Expressions.  `identifier` and `memberAccess` carry the annotations the
validator reads (referenced declaration, lvalue flags, source location, type
annotations); every other expression node only has its children visited and
is modelled by `genericExpr`. -/
inductive Expression
  | identifier (ref : Option DeclTarget) (lValueRequested lValueOfOrdinaryAssignment : Bool)
      (loc : Nat)
  | memberAccess (memberName : String) (operand : Expression)
      (operandType : TypeAnno) (ownType : TypeAnno) (ref : Option DeclTarget)
      (lValueRequested lValueOfOrdinaryAssignment : Bool) (loc : Nat)
  | genericExpr (children : List Expression)

/-- Statements: the control statements the validator overrides, plain
expression statements, and blocks (any other node with statement children). -/
inductive Statement
  | ifStmt (cond : Expression) (trueStmt : Statement) (falseStmt : Option Statement)
  | whileStmt (cond : Expression) (body : Statement)
  | returnStmt (expr : Option Expression) (loc : Nat)
  | exprStmt (e : Expression)
  | block (stmts : List Statement)

/-- A state-variable declaration: identity, declaring contract
(`annotation().contract->id()`), flags, optional inline initializer and
declaration location. -/
structure VariableDeclaration where
  vid : Nat
  contractId : Nat
  isStateVariable : Bool
  immutable : Bool
  value : Option Expression
  loc : Nat

/-- A function definition: identity, name, declaring contract, the flags the
validator reads, signature, modifier-invocation expressions, and optional
body (`isImplemented` iff the body is present). -/
structure FunctionDefinition where
  fid : Nat
  name : String
  contractId : Nat
  isConstructor : Bool
  virtualSemantics : Bool
  paramTypes : List Nat
  returnTypes : List Nat
  modifierInvocations : List Expression
  body : Option Statement

/-- A modifier definition: identity, name, virtual flag, body. -/
structure ModifierDefinition where
  mid : Nat
  name : String
  virtualSemantics : Bool
  body : Statement

/-- A callable declaration (`CallableDeclaration`), restricted to the two
variants the validator dispatches on. -/
inductive Callable
  | func (f : FunctionDefinition)
  | modif (m : ModifierDefinition)

/-- The identity of a callable. -/
def callableId : Callable → Nat
  | .func f => f.fid
  | .modif m => m.mid

/-- `virtualSemantics()` of a callable. -/
def callableVirtual : Callable → Bool
  | .func f => f.virtualSemantics
  | .modif m => m.virtualSemantics

/-- A base-contract reference (`InheritanceSpecifier`) with its optional
constructor-argument list. -/
structure InheritanceSpecifier where
  arguments : Option (List Expression)

/-- A contract definition: identity, directly defined functions and
modifiers, base-contract references, and source location. -/
structure ContractDefinition where
  cid : Nat
  definedFunctions : List FunctionDefinition
  functionModifiers : List ModifierDefinition
  baseContracts : List InheritanceSpecifier
  loc : Nat

/-- The read-only environment of one run: the current contract's state
variables including inherited ones, its linearized base list (most-derived
first, the contract itself first), its location, and the declaration tables
resolving the numeric identities of uses. -/
structure Program where
  stateVarsIncludingInherited : List VariableDeclaration
  linearizedBaseContracts : List ContractDefinition
  contractLoc : Nat
  vars : List VariableDeclaration
  callables : List Callable

/-- Resolve a variable identity against the environment. -/
def lookupVar (P : Program) (vid : Nat) : Option VariableDeclaration :=
  P.vars.find? (fun v => v.vid == vid)

/-- Resolve a callable identity against the environment. -/
def lookupCallable (P : Program) (cid : Nat) : Option Callable :=
  P.callables.find? (fun c => callableId c == cid)

/-- The mutable traversal state of one run of the validator. -/
structure VState where
  readingAllowed : Bool
  initAllowed : Bool
  inBranch : Bool
  inLoop : Bool
  currentConstructor : Option FunctionDefinition
  initialized : List Nat
  visited : List Nat
  errors : List Violation

/-- The state at the start of `analyze`. -/
def initialState : VState :=
  { readingAllowed := false, initAllowed := true, inBranch := false, inLoop := false,
    currentConstructor := none, initialized := [], visited := [], errors := [] }

/-- Append one diagnostic (`m_errorReporter.typeError`). -/
def addError (s : VState) (v : Violation) : VState :=
  { s with errors := s.errors ++ [v] }

/-- Insert an identity into an identity set kept as a duplicate-free list
(`std::set::emplace`). -/
def insertId (n : Nat) (l : List Nat) : List Nat :=
  if n ∈ l then l else l ++ [n]

/-- `ImmutableValidator::analyseVariableDeclaration`: the rule checker for a
single use of a variable, given the use's lvalue annotations and location. -/
def analyseVariableDeclaration (v : VariableDeclaration) (loc : Nat)
    (lValueRequested lValueOfOrdinaryAssignment : Bool) (s : VState) : VState :=
  if !(v.isStateVariable && v.immutable) then s
  else if lValueRequested && lValueOfOrdinaryAssignment then
    let s1 :=
      match s.currentConstructor with
      | none => addError s (Violation.plain loc msgOnlyInline)
      | some ctor =>
          if ctor.contractId != v.contractId then
            addError s (Violation.plain loc msgDefiningContract)
          else if s.inLoop then
            addError s (Violation.plain loc msgLoop)
          else if s.inBranch then
            addError s (Violation.plain loc msgBranch)
          else if !s.initAllowed then
            addError s (Violation.plain loc msgCtorBody)
          else s
    if v.vid ∈ s1.initialized then
      addError s1 (Violation.plain loc msgAlready)
    else { s1 with initialized := s1.initialized ++ [v.vid] }
  else if !s.readingAllowed then
    addError s (Violation.plain loc msgRead)
  else s

/-- `ImmutableValidator::checkAllVariablesInitialized`: report every immutable
state variable of the contract (inherited included) absent from the
initialized set, at the given location, with the declaration site as a
secondary location. -/
def checkAllVariablesInitialized (P : Program) (loc : Nat) (s : VState) : VState :=
  P.stateVarsIncludingInherited.foldl
    (fun st v =>
      if v.immutable then
        if st.initialized.contains v.vid then st
        else addError st (Violation.secondary loc msgNotInitLabel v.loc msgNotAllInit)
      else st) s

/-- The inner scan of `findFinalOverride` for a virtual function: first
defined function in the linearized list with the same name and equal
parameter and return types. -/
def findOverrideFunc (f : FunctionDefinition) : List ContractDefinition → Option FunctionDefinition
  | [] => none
  | c :: rest =>
      match c.definedFunctions.find?
        (fun g => g.name == f.name && g.paramTypes == f.paramTypes
          && g.returnTypes == f.returnTypes) with
      | some g => some g
      | none => findOverrideFunc f rest

/-- The inner scan of `findFinalOverride` for a virtual modifier: first
modifier in the linearized list with the same name. -/
def findOverrideMod (m : ModifierDefinition) : List ContractDefinition → Option ModifierDefinition
  | [] => none
  | c :: rest =>
      match c.functionModifiers.find? (fun md => m.name == md.name) with
      | some md => some md
      | none => findOverrideMod m rest

/-- `ImmutableValidator::findFinalOverride`: the concrete declaration a
possibly-virtual callable resolves to under the current linearization. -/
def findFinalOverride (P : Program) (c : Callable) : Callable :=
  if !callableVirtual c then c
  else
    match c with
    | .func f =>
        match findOverrideFunc f P.linearizedBaseContracts with
        | some g => .func g
        | none => c
    | .modif m =>
        match findOverrideMod m P.linearizedBaseContracts with
        | some md => .modif md
        | none => c

/-! The traversal engine: the visitor of
`ImmutableValidator::visit`/`analyseCallable`/`visitCallable`, with explicit
fuel bounding the recursion through the call graph (every recursive call
spends one unit; out of fuel, a visit is a no-op).  Each equation mirrors
the corresponding C++ visit method. -/
mutual

def visitExpr (P : Program) : Nat → Expression → VState → VState
  | 0, _, s => s
  | Nat.succ fuel, e, s =>
      match e with
      | Expression.identifier ref lvr lvo loc =>
          (match ref with
          | some (DeclTarget.callableRef cid) =>
              match lookupCallable P cid with
              | some cd => visitCallable P fuel (findFinalOverride P cd) s
              | none => s
          | some (DeclTarget.varRef vid) =>
              match lookupVar P vid with
              | some v => analyseVariableDeclaration v loc lvr lvo s
              | none => s
          | none => s)
      | Expression.memberAccess name op opTy ownTy ref lvr lvo loc =>
          if name == "selector"
              && (match opTy with | TypeAnno.functionType _ _ => true | _ => false)
              && (match ownTy with | TypeAnno.fixedBytes => true | _ => false) then
            s
          else
            let s1 := visitExpr P fuel op s
            match ref with
            | some (DeclTarget.varRef vid) =>
                match lookupVar P vid with
                | some v => analyseVariableDeclaration v loc lvr lvo s1
                | none => s1
            | _ =>
                match ownTy with
                | TypeAnno.functionType kind declId =>
                    if (kind == FunctionKind.internal || kind == FunctionKind.declaration)
                        && declId.isSome then
                      match declId with
                      | some cid =>
                          match lookupCallable P cid with
                          | some cd => visitCallable P fuel cd s1
                          | none => s1
                      | none => s1
                    else s1
                | _ => s1
      | Expression.genericExpr children => visitExprList P fuel children s

def visitExprList (P : Program) : Nat → List Expression → VState → VState
  | 0, _, s => s
  | Nat.succ fuel, es, s =>
      match es with
      | [] => s
      | e :: rest => visitExprList P fuel rest (visitExpr P fuel e s)

def visitStmt (P : Program) : Nat → Statement → VState → VState
  | 0, _, s => s
  | Nat.succ fuel, st, s =>
      match st with
      | Statement.ifStmt cond trueStmt falseStmt =>
          let s1 := visitExpr P fuel cond s
          let s2 := visitStmt P fuel trueStmt { s1 with inBranch := true }
          let s3 :=
            match falseStmt with
            | some fs => visitStmt P fuel fs s2
            | none => s2
          { s3 with inBranch := s.inBranch }
      | Statement.whileStmt cond body =>
          let s1 := visitExpr P fuel cond { s with inLoop := true }
          let s2 := visitStmt P fuel body s1
          { s2 with inLoop := s.inLoop }
      | Statement.returnStmt e loc =>
          (match s.currentConstructor with
          | none =>
              match e with
              | some ex => visitExpr P fuel ex s
              | none => s
          | some _ =>
              let s1 :=
                match e with
                | some ex => visitExpr P fuel ex s
                | none => s
              checkAllVariablesInitialized P loc s1)
      | Statement.exprStmt e => visitExpr P fuel e s
      | Statement.block stmts => visitStmtList P fuel stmts s

def visitStmtList (P : Program) : Nat → List Statement → VState → VState
  | 0, _, s => s
  | Nat.succ fuel, sts, s =>
      match sts with
      | [] => s
      | st :: rest => visitStmtList P fuel rest (visitStmt P fuel st s)

def visitCallable (P : Program) : Nat → Callable → VState → VState
  | 0, _, s => s
  | Nat.succ fuel, c, s =>
      if callableId c ∈ s.visited then s
      else analyseCallable P fuel c { s with visited := s.visited ++ [callableId c] }

def analyseCallable (P : Program) : Nat → Callable → VState → VState
  | 0, _, s => s
  | Nat.succ fuel, c, s =>
      match c with
      | Callable.func f =>
          let s0 := { s with currentConstructor := if f.isConstructor then some f else none }
          let prevInit := s0.initAllowed
          let s1 := visitExprList P fuel f.modifierInvocations { s0 with initAllowed := false }
          let s2 := { s1 with initAllowed := prevInit }
          let s3 :=
            match f.body with
            | some b => visitStmt P fuel b s2
            | none => s2
          { s3 with currentConstructor := s.currentConstructor }
      | Callable.modif m =>
          let s0 := { s with currentConstructor := none }
          let s1 := visitStmt P fuel m.body s0
          { s1 with currentConstructor := s.currentConstructor }

end

/-- Phase 1 of `analyze`: for every state variable (inherited included) that
carries an inline initializer, visit the initializer and record the
variable as initialized — regardless of its immutability. -/
def phase1 (P : Program) (fuel : Nat) (s : VState) : VState :=
  P.stateVarsIncludingInherited.foldl
    (fun st v =>
      match v.value with
      | some e =>
          let st1 := visitExpr P fuel e st
          { st1 with initialized := insertId v.vid st1.initialized }
      | none => st) s

/-- The constructor of a contract: its defined function flagged as
constructor (`ContractDefinition::constructor`). -/
def contractConstructor (c : ContractDefinition) : Option FunctionDefinition :=
  c.definedFunctions.find? (fun f => f.isConstructor)

/-- Phase 2 of `analyze` over an explicit contract order: visit each
contract's constructor, if any. -/
def phase2 (P : Program) (fuel : Nat) (order : List ContractDefinition) (s : VState) : VState :=
  order.foldl
    (fun st c =>
      match contractConstructor c with
      | some ctor => visitCallable P fuel (Callable.func ctor) st
      | none => st) s

/-- Phase 3 of `analyze` over an explicit contract order: visit the supplied
constructor arguments of each contract's base-contract references. -/
def phase3 (P : Program) (fuel : Nat) (order : List ContractDefinition) (s : VState) : VState :=
  order.foldl
    (fun st c =>
      c.baseContracts.foldl
        (fun st2 spec =>
          match spec.arguments with
          | some args => visitExprList P fuel args st2
          | none => st2) st) s

/-- Phase 4 of `analyze` over an explicit contract order: visit every defined
function, then every defined modifier, of each contract. -/
def phase4 (P : Program) (fuel : Nat) (order : List ContractDefinition) (s : VState) : VState :=
  order.foldl
    (fun st c =>
      let stf := c.definedFunctions.foldl
        (fun st2 f => visitCallable P fuel (Callable.func f) st2) st
      c.functionModifiers.foldl
        (fun st2 m => visitCallable P fuel (Callable.modif m) st2) stf) s

/-- `ImmutableValidator::analyze`: the four phases, each over the reversed
linearized base list (`linearizedBaseContracts | reversed`, most-base
first), followed by the final completeness check at the contract's own
location. -/
def analyze (P : Program) (fuel : Nat) : VState :=
  let s1 := phase1 P fuel initialState
  let lin := P.linearizedBaseContracts.reverse
  let s2 := phase2 P fuel lin s1
  let s3 := phase3 P fuel lin { s2 with initAllowed := false }
  let s4 := phase4 P fuel lin { s3 with readingAllowed := true }
  checkAllVariablesInitialized P P.contractLoc s4

/-- The phase ordering as the specification's claim words it: phase 2 runs
most-base first, while phases 3 and 4 run over the linearized base list
most-derived first (the list as given, most-derived leading). -/
def analyzeClaimOrder (P : Program) (fuel : Nat) : VState :=
  let s1 := phase1 P fuel initialState
  let s2 := phase2 P fuel P.linearizedBaseContracts.reverse s1
  let s3 := phase3 P fuel P.linearizedBaseContracts { s2 with initAllowed := false }
  let s4 := phase4 P fuel P.linearizedBaseContracts { s3 with readingAllowed := true }
  checkAllVariablesInitialized P P.contractLoc s4

/-- The amended phase ordering: all of phases 2, 3 and 4 iterate the
linearized base list most-base first (the reversed list). -/
def analyzeAmendedOrder (P : Program) (fuel : Nat) : VState :=
  let s1 := phase1 P fuel initialState
  let s2 := phase2 P fuel P.linearizedBaseContracts.reverse s1
  let s3 := phase3 P fuel P.linearizedBaseContracts.reverse { s2 with initAllowed := false }
  let s4 := phase4 P fuel P.linearizedBaseContracts.reverse { s3 with readingAllowed := true }
  checkAllVariablesInitialized P P.contractLoc s4

/-! Concrete example programs used to evaluate the validator on closed
inputs. -/

/-- An immutable state variable `x` declared by contract 1, no inline
initializer. -/
def xVar : VariableDeclaration :=
  { vid := 1, contractId := 1, isStateVariable := true, immutable := true,
    value := none, loc := 7 }

/-- A plain read of `x` at the given location. -/
def readX (l : Nat) : Expression :=
  Expression.identifier (some (DeclTarget.varRef 1)) false false l

/-- Base contract A: one base-contract reference with a constructor argument
reading `x`. -/
def cA : ContractDefinition :=
  { cid := 0, definedFunctions := [], functionModifiers := [],
    baseContracts := [{ arguments := some [readX 21] }], loc := 90 }

/-- Derived contract B: one base-contract reference with a constructor
argument reading `x`. -/
def cB : ContractDefinition :=
  { cid := 1, definedFunctions := [], functionModifiers := [],
    baseContracts := [{ arguments := some [readX 22] }], loc := 91 }

/-- Program whose two contracts both carry base-constructor arguments, making
the phase-3 iteration order observable in the diagnostic order. -/
def P6 : Program :=
  { stateVarsIncludingInherited := [xVar], linearizedBaseContracts := [cB, cA],
    contractLoc := 99, vars := [xVar], callables := [] }

/-- A virtual function `f` of base contract A whose body reads `x`. -/
def fA : FunctionDefinition :=
  { fid := 10, name := "f", contractId := 0, isConstructor := false,
    virtualSemantics := true, paramTypes := [], returnTypes := [],
    modifierInvocations := [], body := some (Statement.exprStmt (readX 100)) }

/-- The override of `f` in derived contract B, with an empty body. -/
def fB : FunctionDefinition :=
  { fid := 11, name := "f", contractId := 1, isConstructor := false,
    virtualSemantics := true, paramTypes := [], returnTypes := [],
    modifierInvocations := [], body := some (Statement.block []) }

/-- Base contract A of the override example. -/
def cA5 : ContractDefinition :=
  { cid := 0, definedFunctions := [fA], functionModifiers := [],
    baseContracts := [], loc := 90 }

/-- Derived contract B of the override example. -/
def cB5 : ContractDefinition :=
  { cid := 1, definedFunctions := [fB], functionModifiers := [],
    baseContracts := [], loc := 91 }

/-- Program where `fA` is overridden by `fB` in the more-derived contract. -/
def P5 : Program :=
  { stateVarsIncludingInherited := [xVar], linearizedBaseContracts := [cB5, cA5],
    contractLoc := 99, vars := [xVar], callables := [Callable.func fA, Callable.func fB] }

/-- A member access naming `fA` through its function type (an internal call
reference), not an lvalue. -/
def ma5 : Expression :=
  Expression.memberAccess "f" (Expression.genericExpr []) TypeAnno.otherType
    (TypeAnno.functionType FunctionKind.internal (some 10)) none false false 50

set_option maxRecDepth 4000 in
/-- C5 counterexample: visiting a member-access reference to the virtual
function `fA` (overridden by `fB`) traverses `fA`'s own body — it reports
the read violation from `fA`'s body — whereas traversing the final
override (`fB`, the resolver's result) reports nothing; so a member-access
call is not attributed to the overriding body, refuting the claim for
member-access references. -/
theorem memberAccess_override_cex :
    (visitExpr P5 6 ma5 initialState).errors = [Violation.plain 100 msgRead]
    ∧ (visitCallable P5 6 (findFinalOverride P5 (Callable.func fA)) initialState).errors = []
    ∧ (visitExpr P5 6 ma5 initialState).errors
        ≠ (visitCallable P5 6 (findFinalOverride P5 (Callable.func fA)) initialState).errors := by
  refine ⟨by decide, by decide, by decide⟩

/-- C5 (amended): a call reached through an identifier reference is
dispatched to the final override (`visitCallable` of `findFinalOverride`),
while a call reached through a member-access reference is dispatched to
the declaration the reference names, with no override resolution. -/
theorem reference_dispatch_amended (P : Program) (fuel cid : Nat) (cd : Callable)
    (lvr lvo : Bool) (loc : Nat) (s : VState)
    (h : lookupCallable P cid = some cd) :
    visitExpr P (fuel + 1)
        (Expression.identifier (some (DeclTarget.callableRef cid)) lvr lvo loc) s
      = visitCallable P fuel (findFinalOverride P cd) s
    ∧ ∀ (name : String) (op : Expression) (opTy : TypeAnno) (kind : FunctionKind)
        (lvr2 lvo2 : Bool) (loc2 : Nat) (s2 : VState),
        kind = FunctionKind.internal ∨ kind = FunctionKind.declaration →
        visitExpr P (fuel + 1)
            (Expression.memberAccess name op opTy (TypeAnno.functionType kind (some cid))
              none lvr2 lvo2 loc2) s2
          = visitCallable P fuel cd (visitExpr P fuel op s2) := by
  constructor
  · simp [visitExpr, h]
  · intro name op opTy kind lvr2 lvo2 loc2 s2 hk
    rcases hk with hk | hk <;> subst hk <;>
      simp [visitExpr, h, Bool.and_false]

/-- Witness for the amended C5 theorem at a concrete program. -/
theorem reference_dispatch_amended_witness :
    lookupCallable P5 10 = some (Callable.func fA)
    ∧ visitExpr P5 6 (Expression.identifier (some (DeclTarget.callableRef 10)) false false 3)
        initialState
      = visitCallable P5 5 (findFinalOverride P5 (Callable.func fA)) initialState
    ∧ visitExpr P5 6 ma5 initialState
      = visitCallable P5 5 (Callable.func fA)
          (visitExpr P5 5 (Expression.genericExpr []) initialState) := by
  refine ⟨rfl, ?_, ?_⟩
  · exact (reference_dispatch_amended P5 5 10 (Callable.func fA) false false 3
      initialState rfl).1
  · exact (reference_dispatch_amended P5 5 10 (Callable.func fA) false false 3
      initialState rfl).2 "f" (Expression.genericExpr []) TypeAnno.otherType
      FunctionKind.internal false false 50 initialState (Or.inl rfl)

set_option maxRecDepth 4000 in
/-- C6 counterexample: on a program with base-constructor arguments in two
contracts of the hierarchy, the validator's diagnostics come out in
most-base-first order, not in the most-derived-first order the claim
states for phases 3 and 4. -/
theorem analyze_phase_order_cex :
    (analyze P6 5).errors ≠ (analyzeClaimOrder P6 5).errors := by decide

/-- C6 (amended): all of phases 2, 3 and 4 iterate the linearized base list
most-base first — the reversal of the linearized base list, whose head is
the most-derived contract. -/
theorem analyze_phase_order_amended (P : Program) (fuel : Nat) :
    analyze P fuel = analyzeAmendedOrder P fuel := rfl

/-- C7: a return statement first visits the returned expression, if present;
then, exactly when a current constructor is set, it runs the completeness
check at the return's location; with no current constructor it is ordinary
control flow (no completeness check, the expression still visited). -/
theorem return_completeness (P : Program) (fuel : Nat) (e : Option Expression)
    (loc : Nat) (s : VState) :
    visitStmt P (fuel + 1) (Statement.returnStmt e loc) s
      = (let s1 := match e with | some ex => visitExpr P fuel ex s | none => s
         match s.currentConstructor with
         | some _ => checkAllVariablesInitialized P loc s1
         | none => s1) := by
  cases hc : s.currentConstructor <;> cases e <;> simp [visitStmt, hc]

/-- C8: a member access whose member name is selector, whose operand has a
function type and whose own type is a fixed-size byte type is not
traversed at all: the visit is the identity on the traversal state, so
neither the operand nor any body reachable from it contributes a
violation. -/
theorem selector_memberAccess_not_traversed (P : Program) (fuel : Nat)
    (op : Expression) (k : FunctionKind) (d : Option Nat) (ref : Option DeclTarget)
    (lvr lvo : Bool) (loc : Nat) (s : VState) :
    visitExpr P fuel
        (Expression.memberAccess "selector" op (TypeAnno.functionType k d)
          TypeAnno.fixedBytes ref lvr lvo loc) s = s := by
  cases fuel with
  | zero => rfl
  | succ n => simp [visitExpr]

/-- C9: an if statement visits its condition with the branch flag at its
incoming value (not raised), then visits the true arm and the optional
false arm with the branch flag raised, and afterwards the branch flag is
restored to its value from before the if statement. -/
theorem ifStatement_branch_flag (P : Program) (fuel : Nat) (cond : Expression)
    (t : Statement) (e : Option Statement) (s : VState) :
    visitStmt P (fuel + 1) (Statement.ifStmt cond t e) s
      = (let s1 := visitExpr P fuel cond s
         let s2 := visitStmt P fuel t { s1 with inBranch := true }
         let s3 := match e with | some es => visitStmt P fuel es s2 | none => s2
         { s3 with inBranch := s.inBranch })
    ∧ ∀ m : Nat, (visitStmt P m (Statement.ifStmt cond t e) s).inBranch = s.inBranch := by
  refine ⟨rfl, ?_⟩
  intro m
  cases m with
  | zero => rfl
  | succ n => simp [visitStmt]

/-- The completeness check characterized as one appended diagnostic per
immutable state variable absent from the initialized set, the rest of the
state unchanged. -/
theorem checkAll_eq (P : Program) (loc : Nat) (s : VState) :
    checkAllVariablesInitialized P loc s
      = { s with errors := (s.errors
            ++ (P.stateVarsIncludingInherited.filter
                  (fun v => v.immutable && !(s.initialized.contains v.vid))).map
                (fun v => Violation.secondary loc msgNotInitLabel v.loc msgNotAllInit)) } := by
  unfold checkAllVariablesInitialized
  generalize P.stateVarsIncludingInherited = l
  induction l generalizing s with
  | nil => simp
  | cons v l ih =>
      simp only [List.foldl_cons, List.filter_cons]
      by_cases hi : v.immutable = true
      · by_cases hc : v.vid ∈ s.initialized
        · simpa [hi, hc] using ih s
        · have h2 := ih (addError s (Violation.secondary loc msgNotInitLabel v.loc msgNotAllInit))
          simp [addError, List.append_assoc] at h2
          simpa [hi, hc, addError, List.append_assoc] using h2
      · simpa [hi] using ih s

/-- C3: the completeness check at a location reports one violation, at that
location and carrying the unresolved variable's declaration site as the
secondary location, for every immutable state variable (inherited ones
included) whose identity is absent from the initialized set; variables in
the set and non-immutable variables produce no violation, and nothing else
in the state changes. -/
theorem checkAllVariablesInitialized_spec (P : Program) (loc : Nat) (s : VState) :
    checkAllVariablesInitialized P loc s
      = { s with errors := (s.errors
            ++ (P.stateVarsIncludingInherited.filter
                  (fun v => v.immutable && !(s.initialized.contains v.vid))).map
                (fun v => Violation.secondary loc msgNotInitLabel v.loc msgNotAllInit)) } :=
  checkAll_eq P loc s

/-- Membership in an identity set is preserved by `insertId`. -/
theorem mem_insertId (x n : Nat) (l : List Nat) (h : x ∈ l) : x ∈ insertId n l := by
  unfold insertId
  split
  · exact h
  · simp [h]

/-- The inserted identity is a member of the result of `insertId`. -/
theorem self_mem_insertId (n : Nat) (l : List Nat) : n ∈ insertId n l := by
  unfold insertId
  split
  · assumption
  · simp

/-- `addError` leaves the initialized set unchanged. -/
theorem addError_initialized (s : VState) (v : Violation) :
    (addError s v).initialized = s.initialized := rfl

/-- Recording a write preserves every previous member of the set. -/
theorem recordStep_mono (s1 : VState) (vid loc x : Nat) (h : x ∈ s1.initialized) :
    x ∈ (if vid ∈ s1.initialized then addError s1 (Violation.plain loc msgAlready)
         else { s1 with initialized := s1.initialized ++ [vid] }).initialized := by
  split
  · exact h
  · simp [h]

/-- The rule checker never removes identities from the initialized set. -/
theorem analyseVariableDeclaration_mono (v : VariableDeclaration) (loc : Nat)
    (lvr lvo : Bool) (s : VState) (x : Nat) (h : x ∈ s.initialized) :
    x ∈ (analyseVariableDeclaration v loc lvr lvo s).initialized := by
  unfold analyseVariableDeclaration
  split
  · exact h
  · split
    · apply recordStep_mono
      cases hc : s.currentConstructor <;> simp only [hc]
      · exact h
      · split
        · exact h
        · split
          · exact h
          · split
            · exact h
            · split <;> exact h
    · split
      · exact h
      · exact h

/-- The completeness check leaves the initialized set unchanged. -/
theorem checkAll_initialized (P : Program) (loc : Nat) (s : VState) :
    (checkAllVariablesInitialized P loc s).initialized = s.initialized := by
  rw [checkAll_eq]

/-- Across every visit function the initialized set only grows: the C++
`m_initializedStateVariables` is only ever inserted into during a run. -/
theorem visit_mono (P : Program) : ∀ fuel : Nat,
    (∀ e s x, x ∈ s.initialized → x ∈ (visitExpr P fuel e s).initialized)
    ∧ (∀ es s x, x ∈ s.initialized → x ∈ (visitExprList P fuel es s).initialized)
    ∧ (∀ st s x, x ∈ s.initialized → x ∈ (visitStmt P fuel st s).initialized)
    ∧ (∀ sts s x, x ∈ s.initialized → x ∈ (visitStmtList P fuel sts s).initialized)
    ∧ (∀ c s x, x ∈ s.initialized → x ∈ (visitCallable P fuel c s).initialized)
    ∧ (∀ c s x, x ∈ s.initialized → x ∈ (analyseCallable P fuel c s).initialized) := by
  intro fuel
  induction fuel with
  | zero =>
      refine ⟨?_, ?_, ?_, ?_, ?_, ?_⟩ <;> intro a s x h <;>
        simpa [visitExpr, visitExprList, visitStmt, visitStmtList, visitCallable,
          analyseCallable] using h
  | succ n ih =>
      obtain ⟨ihE, ihEL, ihS, ihSL, ihC, ihAC⟩ := ih
      have hCall : ∀ c s x, x ∈ s.initialized → x ∈ (visitCallable P (n + 1) c s).initialized := by
        intro c s x h
        simp only [visitCallable]
        split
        · exact h
        · exact ihAC _ _ _ h
      refine ⟨?_, ?_, ?_, ?_, hCall, ?_⟩
      · intro e s x h
        cases e with
        | identifier ref lvr lvo loc =>
            simp only [visitExpr]
            rcases ref with _ | t
            · exact h
            · cases t with
              | varRef vid =>
                  cases hv : lookupVar P vid with
                  | none => simpa [hv] using h
                  | some v =>
                      simpa [hv] using analyseVariableDeclaration_mono v loc lvr lvo s x h
              | callableRef cid =>
                  cases hcd : lookupCallable P cid with
                  | none => simpa [hcd] using h
                  | some cd => simpa [hcd] using ihC _ _ _ h
        | memberAccess name op opTy ownTy ref lvr lvo loc =>
            simp only [visitExpr]
            split
            · exact h
            · have h1 := ihE op s x h
              split
              · split
                · exact analyseVariableDeclaration_mono _ _ _ _ _ _ h1
                · exact h1
              · split
                · split
                  · split
                    · split
                      · exact ihC _ _ _ h1
                      · exact h1
                    · exact h1
                  · exact h1
                · exact h1
        | genericExpr children => exact ihEL _ _ _ h
      · intro es s x h
        cases es with
        | nil => simpa [visitExprList] using h
        | cons e rest =>
            simp only [visitExprList]
            exact ihEL _ _ _ (ihE _ _ _ h)
      · intro st s x h
        cases st with
        | ifStmt cond trueStmt falseStmt =>
            simp only [visitStmt]
            cases falseStmt with
            | none => exact ihS _ _ _ (ihE _ _ _ h)
            | some fs => exact ihS _ _ _ (ihS _ _ _ (ihE _ _ _ h))
        | whileStmt cond body =>
            simp only [visitStmt]
            exact ihS _ _ _ (ihE _ _ _ h)
        | returnStmt e loc =>
            simp only [visitStmt]
            cases hc : s.currentConstructor with
            | none =>
                cases e with
                | none => exact h
                | some ex => exact ihE _ _ _ h
            | some ctor =>
                cases e with
                | none => simpa [checkAll_initialized] using h
                | some ex => simpa [checkAll_initialized] using ihE _ _ _ h
        | exprStmt e => exact ihE _ _ _ h
        | block stmts => exact ihSL _ _ _ h
      · intro sts s x h
        cases sts with
        | nil => simpa [visitStmtList] using h
        | cons st rest =>
            simp only [visitStmtList]
            exact ihSL _ _ _ (ihS _ _ _ h)
      · intro c s x h
        cases c with
        | func f =>
            simp only [analyseCallable]
            cases hb : f.body with
            | none => exact ihEL _ _ _ h
            | some b => exact ihS _ _ _ (ihEL _ _ _ h)
        | modif m =>
            simp only [analyseCallable]
            exact ihS _ _ _ h

/-- The contract-by-contract scan for a function override equals one search
over the linearized list's functions flattened in order. -/
theorem findOverrideFunc_flatten (f : FunctionDefinition) (cs : List ContractDefinition) :
    findOverrideFunc f cs
      = (cs.flatMap fun ct => ct.definedFunctions).find?
          (fun g => g.name == f.name && g.paramTypes == f.paramTypes
            && g.returnTypes == f.returnTypes) := by
  induction cs with
  | nil => rfl
  | cons c rest ih =>
      simp only [findOverrideFunc, List.flatMap_cons, List.find?_append, ih]
      cases c.definedFunctions.find?
        (fun g => g.name == f.name && g.paramTypes == f.paramTypes
          && g.returnTypes == f.returnTypes) <;> simp [Option.or]

/-- The contract-by-contract scan for a modifier override equals one search
over the linearized list's modifiers flattened in order. -/
theorem findOverrideMod_flatten (m : ModifierDefinition) (cs : List ContractDefinition) :
    findOverrideMod m cs
      = (cs.flatMap fun ct => ct.functionModifiers).find? (fun md => m.name == md.name) := by
  induction cs with
  | nil => rfl
  | cons c rest ih =>
      simp only [findOverrideMod, List.flatMap_cons, List.find?_append, ih]
      cases c.functionModifiers.find? (fun md => m.name == md.name) <;> simp [Option.or]

/-- C4: a callable without virtual semantics resolves to itself; a virtual
function resolves to the first function, scanning the linearized base list
most-derived to most-base, with the same name and equal parameter and
return types; a virtual modifier resolves to the first modifier with the
same name; with no match, the callable resolves to itself. -/
theorem findFinalOverride_spec (P : Program) (c : Callable) :
    (callableVirtual c = false → findFinalOverride P c = c)
    ∧ (∀ f, c = Callable.func f → f.virtualSemantics = true →
        findFinalOverride P c
          = (match (P.linearizedBaseContracts.flatMap fun ct => ct.definedFunctions).find?
                (fun g => g.name == f.name && g.paramTypes == f.paramTypes
                  && g.returnTypes == f.returnTypes) with
             | some g => Callable.func g
             | none => Callable.func f))
    ∧ (∀ m, c = Callable.modif m → m.virtualSemantics = true →
        findFinalOverride P c
          = (match (P.linearizedBaseContracts.flatMap fun ct => ct.functionModifiers).find?
                (fun md => m.name == md.name) with
             | some md => Callable.modif md
             | none => Callable.modif m)) := by
  refine ⟨?_, ?_, ?_⟩
  · intro hv
    simp [findFinalOverride, hv]
  · intro f hf hv
    subst hf
    simp only [findFinalOverride, callableVirtual, hv, Bool.not_true, Bool.false_eq_true,
      if_false, ← findOverrideFunc_flatten]
  · intro m hm hv
    subst hm
    simp only [findFinalOverride, callableVirtual, hv, Bool.not_true, Bool.false_eq_true,
      if_false, ← findOverrideMod_flatten]

/-- A non-virtual function, used as witness input for the resolver. -/
def fPlain : FunctionDefinition :=
  { fid := 12, name := "g", contractId := 1, isConstructor := false,
    virtualSemantics := false, paramTypes := [], returnTypes := [],
    modifierInvocations := [], body := none }

/-- Witness for C4, applying the resolver theorem to a non-virtual callable
and to the overridden virtual function of the concrete program. -/
theorem findFinalOverride_spec_witness :
    findFinalOverride P5 (Callable.func fPlain) = Callable.func fPlain
    ∧ findFinalOverride P5 (Callable.func fA) = Callable.func fB := by
  constructor
  · exact (findFinalOverride_spec P5 (Callable.func fPlain)).1 rfl
  · exact ((findFinalOverride_spec P5 (Callable.func fA)).2.1 fA rfl rfl).trans rfl

/-- Report the first condition of an ordered list that holds (the claim's
wording of the plain-write violation choice). -/
def reportFirst (s : VState) : List (Bool × Violation) → VState
  | [] => s
  | (b, viol) :: rest => if b then addError s viol else reportFirst s rest

/-- The five plain-write conditions, in the claim's fixed order. -/
def writeConditions (v : VariableDeclaration) (loc : Nat) (s : VState) :
    List (Bool × Violation) :=
  [ (s.currentConstructor.isNone, Violation.plain loc msgOnlyInline),
    ((match s.currentConstructor with
      | some ctor => ctor.contractId != v.contractId
      | none => false), Violation.plain loc msgDefiningContract),
    (s.inLoop, Violation.plain loc msgLoop),
    (s.inBranch, Violation.plain loc msgBranch),
    (!s.initAllowed, Violation.plain loc msgCtorBody) ]

/-- Recording of a write, as the claim words it: a second write of the same
identity is the distinct already-initialized violation, a first write is an
insertion into the set. -/
def recordWrite (vid loc : Nat) (s : VState) : VState :=
  if vid ∈ s.initialized then addError s (Violation.plain loc msgAlready)
  else { s with initialized := s.initialized ++ [vid] }

/-- C1: a use of an immutable state variable that is the target of an
ordinary assignment reports exactly the first of the five conditions, in
the claim's fixed order, that holds, and then — independently of any
report — records the write: a second write reports the distinct
already-initialized violation, a first write inserts the identity. -/
theorem plain_write_rule (v : VariableDeclaration) (loc : Nat) (s : VState)
    (hsv : v.isStateVariable = true) (him : v.immutable = true) :
    analyseVariableDeclaration v loc true true s
      = recordWrite v.vid loc (reportFirst s (writeConditions v loc s)) := by
  cases hc : s.currentConstructor <;>
    simp [analyseVariableDeclaration, recordWrite, reportFirst, writeConditions,
      hsv, him, hc]

/-- Witness for C1 at a concrete immutable variable and the initial state. -/
theorem plain_write_rule_witness :
    xVar.isStateVariable = true ∧ xVar.immutable = true
    ∧ analyseVariableDeclaration xVar 5 true true initialState
      = recordWrite xVar.vid 5 (reportFirst initialState (writeConditions xVar 5 initialState)) :=
  ⟨rfl, rfl, plain_write_rule xVar 5 initialState rfl rfl⟩

/-- C2: a use of an immutable state variable that is not the target of an
ordinary assignment reports the cannot-read-during-construction violation
exactly when reading is forbidden by the phase, and never changes the
initialized set. -/
theorem plain_read_rule (v : VariableDeclaration) (loc : Nat) (lvr lvo : Bool)
    (s : VState) (hsv : v.isStateVariable = true) (him : v.immutable = true)
    (hlv : (lvr && lvo) = false) :
    analyseVariableDeclaration v loc lvr lvo s
      = (if s.readingAllowed then s else addError s (Violation.plain loc msgRead))
    ∧ (analyseVariableDeclaration v loc lvr lvo s).initialized = s.initialized := by
  have he : analyseVariableDeclaration v loc lvr lvo s
      = (if s.readingAllowed then s else addError s (Violation.plain loc msgRead)) := by
    cases hr : s.readingAllowed <;>
      simp [analyseVariableDeclaration, hsv, him, hlv, hr]
  refine ⟨he, ?_⟩
  rw [he]
  cases hr : s.readingAllowed <;> simp [addError]

/-- Witness for C2 at a concrete immutable variable: a non-ordinary lvalue
use in the initial state (reading forbidden) reports the read violation. -/
theorem plain_read_rule_witness :
    (true && false) = false
    ∧ analyseVariableDeclaration xVar 9 true false initialState
      = (if initialState.readingAllowed then initialState
         else addError initialState (Violation.plain 9 msgRead))
    ∧ (analyseVariableDeclaration xVar 9 true false initialState).initialized
      = initialState.initialized := by
  obtain ⟨h1, h2⟩ := plain_read_rule xVar 9 true false initialState rfl rfl rfl
  exact ⟨rfl, h1, h2⟩

/-- Phase 1's fold preserves previous members of the set and inserts the
identity of every variable of the list that carries an inline
initializer. -/
theorem phase1_fold_mem (P : Program) (fuel : Nat) :
    ∀ (l : List VariableDeclaration) (s : VState),
    (∀ x, x ∈ s.initialized →
      x ∈ (l.foldl (fun st v =>
        match v.value with
        | some e =>
            let st1 := visitExpr P fuel e st
            { st1 with initialized := insertId v.vid st1.initialized }
        | none => st) s).initialized)
    ∧ ∀ v ∈ l, v.value.isSome = true →
        v.vid ∈ (l.foldl (fun st v =>
          match v.value with
          | some e =>
              let st1 := visitExpr P fuel e st
              { st1 with initialized := insertId v.vid st1.initialized }
          | none => st) s).initialized := by
  intro l
  induction l with
  | nil => exact fun s => ⟨fun x h => h, by simp⟩
  | cons v l ih =>
      intro s
      have hstep : ∀ x, x ∈ s.initialized →
          x ∈ ((match v.value with
            | some e =>
                let st1 := visitExpr P fuel e s
                { st1 with initialized := insertId v.vid st1.initialized }
            | none => s) : VState).initialized := by
        intro x hx
        cases hv : v.value with
        | none => exact hx
        | some e => exact mem_insertId _ _ _ ((visit_mono P fuel).1 e s x hx)
      constructor
      · intro x hx
        simp only [List.foldl_cons]
        exact (ih _).1 x (hstep x hx)
      · intro w hw hval
        simp only [List.foldl_cons]
        rcases List.mem_cons.mp hw with h1 | h1
        · subst h1
          refine (ih _).1 w.vid ?_
          cases hv : w.value with
          | none => rw [hv] at hval; simp at hval
          | some e => simp only [hv]; exact self_mem_insertId _ _
        · exact (ih _).2 w h1 hval

set_option maxHeartbeats 1000000 in
/-- The rule checker's diagnostics depend on the initialized set only through
the membership of the used variable's own identity. -/
theorem analyseVar_err_only_mem (v : VariableDeclaration) (loc : Nat) (lvr lvo : Bool)
    (s : VState) (l1 l2 : List Nat) (hiff : v.vid ∈ l1 ↔ v.vid ∈ l2) :
    (analyseVariableDeclaration v loc lvr lvo { s with initialized := l1 }).errors
      = (analyseVariableDeclaration v loc lvr lvo { s with initialized := l2 }).errors := by
  by_cases hm : v.vid ∈ l1
  · have hm2 : v.vid ∈ l2 := hiff.mp hm
    cases hc : s.currentConstructor <;>
      simp [analyseVariableDeclaration, hc, addError, hm, hm2] <;>
      split_ifs <;> simp [addError]
  · have hm2 : v.vid ∉ l2 := fun h => hm (hiff.mpr h)
    cases hc : s.currentConstructor <;>
      simp [analyseVariableDeclaration, hc, addError, hm, hm2] <;>
      split_ifs <;> simp [addError]

/-- The completeness check's diagnostics are unchanged when the initialized
set is replaced by any set agreeing with it on the immutable variables. -/
theorem checkAll_err_only_immutables (P : Program) (loc : Nat) (s : VState)
    (l1 l2 : List Nat)
    (hag : ∀ v ∈ P.stateVarsIncludingInherited, v.immutable = true →
      (v.vid ∈ l1 ↔ v.vid ∈ l2)) :
    (checkAllVariablesInitialized P loc { s with initialized := l1 }).errors
      = (checkAllVariablesInitialized P loc { s with initialized := l2 }).errors := by
  rw [checkAll_eq, checkAll_eq]
  have hfil : P.stateVarsIncludingInherited.filter
        (fun v => v.immutable && !(l1.contains v.vid))
      = P.stateVarsIncludingInherited.filter
        (fun v => v.immutable && !(l2.contains v.vid)) := by
    apply List.filter_congr
    intro v hv
    by_cases hi : v.immutable = true
    · have hiv := hag v hv hi
      simp only [hi, Bool.true_and]
      simp [hiv]
    · simp only [Bool.not_eq_true] at hi
      simp [hi]
  simpa using congrArg
    (fun l => s.errors
      ++ l.map (fun v => Violation.secondary loc msgNotInitLabel v.loc msgNotAllInit)) hfil

/-- C10: the initialized set is not restricted to immutables — phase 1
records every state variable carrying an inline initializer, immutable or
not; yet the diagnostics consulting the set apply only to immutables: a
non-immutable use reports nothing and changes nothing, the write-recording
diagnostics of a use depend on the set only through the used variable's
own identity, and the completeness check's diagnostics are unchanged under
any modification of the set's non-immutable entries. -/
theorem initialized_set_not_restricted (P : Program) (fuel : Nat) :
    (∀ s v, v ∈ P.stateVarsIncludingInherited → v.value.isSome = true →
        v.vid ∈ (phase1 P fuel s).initialized)
    ∧ (∀ (v : VariableDeclaration) (loc : Nat) (lvr lvo : Bool) (s : VState),
        v.immutable = false → analyseVariableDeclaration v loc lvr lvo s = s)
    ∧ (∀ (v : VariableDeclaration) (loc : Nat) (lvr lvo : Bool) (s : VState)
        (l1 l2 : List Nat), (v.vid ∈ l1 ↔ v.vid ∈ l2) →
        (analyseVariableDeclaration v loc lvr lvo { s with initialized := l1 }).errors
          = (analyseVariableDeclaration v loc lvr lvo { s with initialized := l2 }).errors)
    ∧ (∀ (loc : Nat) (s : VState) (l1 l2 : List Nat),
        (∀ v ∈ P.stateVarsIncludingInherited, v.immutable = true →
          (v.vid ∈ l1 ↔ v.vid ∈ l2)) →
        (checkAllVariablesInitialized P loc { s with initialized := l1 }).errors
          = (checkAllVariablesInitialized P loc { s with initialized := l2 }).errors) := by
  refine ⟨?_, ?_, ?_, ?_⟩
  · intro s v hv hval
    exact (phase1_fold_mem P fuel P.stateVarsIncludingInherited s).2 v hv hval
  · intro v loc lvr lvo s him
    simp [analyseVariableDeclaration, him]
  · intro v loc lvr lvo s l1 l2 hiff
    exact analyseVar_err_only_mem v loc lvr lvo s l1 l2 hiff
  · intro loc s l1 l2 hag
    exact checkAll_err_only_immutables P loc s l1 l2 hag

/-- A mutable (non-immutable) state variable with an inline initializer,
declared by contract 1. -/
def yVar : VariableDeclaration :=
  { vid := 2, contractId := 1, isStateVariable := true, immutable := false,
    value := some (Expression.genericExpr []), loc := 8 }

/-- Program with one non-immutable inline-initialized variable and one
immutable variable. -/
def P10 : Program :=
  { stateVarsIncludingInherited := [yVar, xVar], linearizedBaseContracts := [],
    contractLoc := 99, vars := [yVar, xVar], callables := [] }

/-- Witness for C10 at concrete inputs: the non-immutable inline-initialized
variable is recorded by phase 1, a non-immutable use is a no-op, and the
consulting diagnostics are unchanged under sets differing in a
non-immutable identity. -/
theorem initialized_set_not_restricted_witness :
    yVar.vid ∈ (phase1 P10 3 initialState).initialized
    ∧ analyseVariableDeclaration yVar 5 true true initialState = initialState
    ∧ (analyseVariableDeclaration xVar 5 true true
        { initialState with initialized := [1] }).errors
      = (analyseVariableDeclaration xVar 5 true true
        { initialState with initialized := [1, 2] }).errors
    ∧ (checkAllVariablesInitialized P10 5 { initialState with initialized := [1] }).errors
      = (checkAllVariablesInitialized P10 5 { initialState with initialized := [1, 2] }).errors := by
  refine ⟨?_, ?_, ?_, ?_⟩
  · exact (initialized_set_not_restricted P10 3).1 initialState yVar
      (List.mem_cons_self _ _) rfl
  · exact (initialized_set_not_restricted P10 3).2.1 yVar 5 true true initialState rfl
  · exact (initialized_set_not_restricted P10 3).2.2.1 xVar 5 true true initialState
      [1] [1, 2] (by decide)
  · refine (initialized_set_not_restricted P10 3).2.2.2 5 initialState [1] [1, 2] ?_
    intro v hv hi
    rcases List.mem_cons.mp hv with h1 | h1
    · subst h1; simp [yVar] at hi
    · rcases List.mem_cons.mp h1 with h2 | h2
      · subst h2; decide
      · simp at h2

end ImmutableValidator
